import Mathlib

/-!
Verification of the VIBE configuration parser (src/vibe.c, src/vibe.h).

This file shallowly embeds the lexer, the stack-driven parser, the value
tree and the path-lookup layer of the C source, and proves (or refutes)
the frozen claims about them.

Modelling conventions:
* the C byte cursor (pos into a NUL-terminated buffer) becomes a
  `List Char` holding the not-yet-consumed input, together with the
  running 1-indexed line and column counters that the C parser keeps;
* machine strings become `String` / `List Char`;
* `int64_t` becomes `Int` clamped to the signed 64-bit range exactly
  where the C library function (`strtoll`) clamps;
* a Float value's payload is represented by the token text it was parsed
  from: no claim inspects the binary64 payload, and the token text
  determines it;
* fallible C functions returning NULL with a latched error message become
  `Except String _` / `Option _` plus an explicit latched error field.
-/

/-! ## Character classification (vibe.c lines 141-157)

The C code calls `isalpha` / `isalnum` / `isdigit` on bytes; for the
byte range the lexer ever feeds them (printable ASCII) these agree with
the ASCII-only predicates below. -/

def isAlphaAscii (c : Char) : Bool :=
  (65 ≤ c.toNat && c.toNat ≤ 90) || (97 ≤ c.toNat && c.toNat ≤ 122)

def isDigitAscii (c : Char) : Bool :=
  48 ≤ c.toNat && c.toNat ≤ 57

def is_identifier_start (c : Char) : Bool :=
  isAlphaAscii c || c = '_'

def is_identifier_char (c : Char) : Bool :=
  isAlphaAscii c || isDigitAscii c || c = '_' || c = '-'

def is_unquoted_string_char (c : Char) : Bool :=
  if c.toNat ≤ 0x20 || c.toNat > 0x7E then false
  else if c = '{' || c = '}' || c = '[' || c = ']' || c = '#' then false
  else true

/-! ## Number validation (vibe.c `is_valid_number`, lines 161-193) -/

def ivnLoop : List Char → Bool → Bool → Bool
  | [], hasDot, hasDigitAfterDot => !(hasDot && !hasDigitAfterDot)
  | c :: rest, hasDot, hasDigitAfterDot =>
    if isDigitAscii c then
      ivnLoop rest hasDot (if hasDot then true else hasDigitAfterDot)
    else if c = '.' then
      if hasDot then false else ivnLoop rest true hasDigitAfterDot
    else
      false

def is_valid_number (s : List Char) : Bool :=
  match s with
  | [] => false
  | _ =>
    let p := if s.head? = some '-' then s.tail else s
    match p with
    | [] => false
    | c :: _ => if !isDigitAscii c then false else ivnLoop p false false

/-! ## Value tree (vibe.h `VibeValue`, `VibeObject`, `VibeArray`)

Objects are insertion-ordered key/value entry lists, arrays are ordered
value lists; capacity bookkeeping of the C dynamic arrays is not
observable and is dropped.  The Float payload carries the source token
text (see the header comment). -/

inductive VibeValue where
  | null
  | integer (n : Int)
  | float (text : String)
  | boolean (b : Bool)
  | string (s : String)
  | array (values : List VibeValue)
  | object (entries : List (String × VibeValue))

/-! ## Error channel (vibe.c `set_error`, lines 113-126): first error latches. -/

structure PState where
  rest : List Char
  line : Nat
  col : Nat
  err : Option String

def set_error (st : PState) (msg : String) : PState :=
  if st.err.isSome then st else { st with err := some msg }

/-- ASCII apostrophe, used to build error messages verbatim from the C
format strings. -/
def apos : Char := Char.ofNat 39

def errUnexpectedChar (c : Char) : String :=
  "Unexpected character " ++ String.mk [apos, c, apos]

def errInvalidEscape (x : Char) : String :=
  "Invalid escape sequence " ++ String.mk [apos, '\\', x, apos]

/-! ## Tokens (vibe.c lines 31-51) -/

inductive TokenType where
  | eof | identifier | string | number | boolean
  | lbrace | rbrace | lbracket | rbracket | newline | error
  deriving DecidableEq, Repr

structure Token where
  type : TokenType
  value : Option String
  line : Nat
  col : Nat
  deriving Repr

/-! ## Whitespace and comments (vibe.c lines 211-231)

`skip_comment` in the C source advances `pos` past the comment bytes
without touching `column`; the model reproduces that faithfully. -/

def skipWsAux : List Char → Nat → List Char × Nat
  | [], col => ([], col)
  | c :: rest, col =>
    if c = ' ' || c = '\t' || c = '\r' then skipWsAux rest (col + 1)
    else (c :: rest, col)

def skipCommentAux (rest : List Char) : List Char :=
  match rest with
  | '#' :: _ => rest.dropWhile (fun c => !(c = '\n'))
  | _ => rest

/-! ## Quoted strings (vibe.c `parse_quoted_string`, lines 233-282)

`bufRev` is the 4096-byte buffer (payload so far, reversed), `bufPos`
the C `buf_pos` counter; the C code appends a byte and then fails with
"String too long" once `buf_pos >= 4095`. -/

def decodeEscape : Char → Option Char
  | '"' => some '"'
  | '\\' => some '\\'
  | 'n' => some '\n'
  | 't' => some '\t'
  | 'r' => some '\r'
  | _ => none

def pqsAux : List Char → List Char → Nat → Nat → Except String (String × List Char × Nat)
  | [], _, _, _ => .error "Unterminated string"
  | '"' :: rest, bufRev, _, col => .ok (String.mk bufRev.reverse, rest, col + 1)
  | '\\' :: x :: rest, bufRev, bufPos, col =>
    match decodeEscape x with
    | some d =>
      if 4095 ≤ bufPos + 1 then .error "String too long"
      else pqsAux rest (d :: bufRev) (bufPos + 1) (col + 2)
    | none => .error (errInvalidEscape x)
  | '\n' :: _, _, _, _ => .error "Unterminated string"
  | c :: rest, bufRev, bufPos, col =>
    if 4095 ≤ bufPos + 1 then .error "String too long"
    else pqsAux rest (c :: bufRev) (bufPos + 1) (col + 1)

/-! ## The lexer (vibe.c `next_token`, lines 284-395) -/

def mkTok (t : TokenType) (line col : Nat) : Token :=
  { type := t, value := none, line := line, col := col }

def classifyRun (c : Char) (run : List Char) : TokenType :=
  let value := String.mk run
  if value = "true" || value = "false" then .boolean
  else if is_valid_number run then .number
  else if is_identifier_start c then
    if run.all is_identifier_char then .identifier else .string
  else .string

def next_token (st : PState) : Token × PState :=
  let w1 := skipWsAux st.rest st.col
  let r2 := skipCommentAux w1.1
  let w3 := skipWsAux r2 w1.2
  match w3.1 with
  | [] => (mkTok .eof 0 0, { st with rest := [], col := w3.2 })
  | c :: rest =>
    let line := st.line
    let col := w3.2
    if c = '\n' then
      (mkTok .newline line col, { st with rest := rest, line := line + 1, col := 1 })
    else if c = '{' then
      (mkTok .lbrace line col, { st with rest := rest, col := col + 1 })
    else if c = '}' then
      (mkTok .rbrace line col, { st with rest := rest, col := col + 1 })
    else if c = '[' then
      (mkTok .lbracket line col, { st with rest := rest, col := col + 1 })
    else if c = ']' then
      (mkTok .rbracket line col, { st with rest := rest, col := col + 1 })
    else if c = '"' then
      match pqsAux rest [] 0 (col + 1) with
      | .ok (payload, rest2, col2) =>
        ({ type := .string, value := some payload, line := line, col := col },
         { st with rest := rest2, col := col2 })
      | .error msg =>
        (mkTok .error line col, set_error { st with rest := c :: rest, col := col } msg)
    else if is_identifier_start c || isDigitAscii c ||
            c = '-' || c = '/' || c = '.' || c = '~' then
      let run := (c :: rest).takeWhile is_unquoted_string_char
      let rest2 := (c :: rest).dropWhile is_unquoted_string_char
      ({ type := classifyRun c run, value := some (String.mk run), line := line, col := col },
       { st with rest := rest2, col := col + run.length })
    else
      (mkTok .error line col, set_error { st with rest := c :: rest, col := col } (errUnexpectedChar c))

/-! ## Scalar conversion (vibe.c `parse_value_from_token`, lines 474-508)

Integers go through `strtoll(text, _, 10)`: the code ignores `errno`, so
out-of-range decimals saturate to the signed 64-bit bounds.  For token
texts that satisfy the lexer's numeric grammar the `endptr == value`
failure branch is unreachable.  -/

def int64Max : Int := 9223372036854775807
def int64Min : Int := -9223372036854775808

def denotedInt (s : List Char) : Int :=
  match s with
  | '-' :: ds => -(ds.foldl (fun acc c => acc * 10 + (c.toNat - 48)) 0 : Nat)
  | ds => (ds.foldl (fun acc c => acc * 10 + (c.toNat - 48)) 0 : Nat)

def clampInt64 (v : Int) : Int := max int64Min (min int64Max v)

def strtollClamp (s : List Char) : Int := clampInt64 (denotedInt s)

def parse_value_from_token (t : Token) : Option VibeValue :=
  match t.value with
  | none => none
  | some s =>
    match t.type with
    | .boolean => some (.boolean (s = "true"))
    | .number =>
      if s.data.contains '.' then some (.float s)
      else some (.integer (strtollClamp s.data))
    | .string => some (.string s)
    | .identifier => some (.string s)
    | _ => none

/-! ## Object and array operations (vibe.c lines 512-572)

`objectSetCore` additionally returns the value that `vibe_object_set`
passes to `vibe_value_free` when it replaces an existing entry (the C
code frees the prior value in place and keeps the entry's key and
position). -/

def objectSetCore : List (String × VibeValue) → String → VibeValue →
    List (String × VibeValue) × Option VibeValue
  | [], k, v => ([(k, v)], none)
  | (k0, v0) :: rest, k, v =>
    if k0 = k then ((k0, v) :: rest, some v0)
    else
      let r := objectSetCore rest k v
      ((k0, v0) :: r.1, r.2)

def vibe_object_set (es : List (String × VibeValue)) (k : String) (v : VibeValue) :
    List (String × VibeValue) :=
  (objectSetCore es k v).1

def vibe_object_get : List (String × VibeValue) → String → Option VibeValue
  | [], _ => none
  | (k0, v0) :: rest, k => if k0 = k then some v0 else vibe_object_get rest k

def vibe_array_push (vs : List VibeValue) (v : VibeValue) : List VibeValue :=
  vs ++ [v]

def vibe_array_get (vs : List VibeValue) (i : Nat) : Option VibeValue :=
  vs.get? i

/-! ## Parser stack (vibe.c lines 55-73 and 614-763)

The C parser owns mutable containers reached through pointers stored in
stack frames; only the top frame's container is ever mutated.  The model
therefore keeps the container of each frame by value and, when a frame
is popped (or the stack is unwound at EOF), writes the finished
container back into the parent frame's container at the attach point
recorded when the frame was pushed (the key, resp. array index, under
which the C code inserted the child container before pushing). -/

inductive FrameKind where
  | root | object | array
  deriving DecidableEq, Repr

inductive Container where
  | obj (entries : List (String × VibeValue))
  | arr (values : List VibeValue)

inductive Attach where
  | root
  | atKey (k : String)
  | atIndex (i : Nat)

structure Frame where
  kind : FrameKind
  cont : Container
  attach : Attach

def contToValue : Container → VibeValue
  | .obj es => .object es
  | .arr vs => .array vs

def contLen : Container → Nat
  | .obj es => es.length
  | .arr vs => vs.length

def objSetCont : Container → String → VibeValue → Container
  | .obj es, k, v => .obj (vibe_object_set es k v)
  | c, _, _ => c

def arrPushCont : Container → VibeValue → Container
  | .arr vs, v => .arr (vibe_array_push vs v)
  | c, _ => c

def attachInto (parent : Container) (a : Attach) (child : VibeValue) : Container :=
  match parent, a with
  | .obj es, .atKey k => .obj (es.map (fun e => if e.1 = k then (e.1, child) else e))
  | .arr vs, .atIndex i => .arr (vs.set i child)
  | p, _ => p

def popFrame (top parent : Frame) : Frame :=
  { parent with cont := attachInto parent.cont top.attach (contToValue top.cont) }

def finishStack : Frame → List Frame → VibeValue
  | top, [] => contToValue top.cont
  | top, p :: rs => finishStack (popFrame top p) rs

/-! ## One parser step (the token dispatch of `vibe_parse_string`,
vibe.c lines 655-758)

The nesting depth of the C code is the index of the top frame in its
fixed 64-entry array, i.e. `rest.length` here.  `MAX_NESTING_DEPTH` is
64: pushing under an identifier fails once the new depth reaches 64,
while a left brace inside an array (lines 727-738) appends the new
object unconditionally but pushes its frame only when the current depth
is below 63. -/

inductive StepRes where
  | next (st : PState) (top : Frame) (rest : List Frame)
  | abort (st : PState)

def parseStep (tok : Token) (st : PState) (top : Frame) (rest : List Frame) : StepRes :=
  match top.kind with
  | .root | .object =>
    match tok.type with
    | .identifier =>
      let key := (tok.value).getD ""
      let peek := next_token st
      let nt := peek.1
      let st2 := peek.2
      if nt.type = .lbrace then
        if 64 ≤ rest.length + 1 then
          .abort (set_error st2 "Maximum nesting depth exceeded")
        else
          .next st2 { kind := .object, cont := .obj [], attach := .atKey key }
            ({ top with cont := objSetCont top.cont key (.object []) } :: rest)
      else if nt.type = .lbracket then
        if 64 ≤ rest.length + 1 then
          .abort (set_error st2 "Maximum nesting depth exceeded")
        else
          .next st2 { kind := .array, cont := .arr [], attach := .atKey key }
            ({ top with cont := objSetCont top.cont key (.array []) } :: rest)
      else
        match parse_value_from_token nt with
        | some v => .next st2 { top with cont := objSetCont top.cont key v } rest
        | none => .next st2 top rest
    | .rbrace =>
      match rest with
      | [] => .next st top []
      | p :: rs => .next st (popFrame top p) rs
    | _ => .next st top rest
  | .array =>
    match tok.type with
    | .rbracket =>
      match rest with
      | [] => .next st top []
      | p :: rs => .next st (popFrame top p) rs
    | .lbrace =>
      let idx := contLen top.cont
      let top2 := { top with cont := arrPushCont top.cont (.object []) }
      if rest.length < 63 then
        .next st { kind := .object, cont := .obj [], attach := .atIndex idx } (top2 :: rest)
      else
        .next st top2 rest
    | _ =>
      match parse_value_from_token tok with
      | some v => .next st { top with cont := arrPushCont top.cont v } rest
      | none => .next st top rest

/-! ## The parse loop (vibe.c `vibe_parse_string`, lines 614-763)

Fuel counts loop iterations; every iteration other than the final EOF
one consumes at least one input character, so `input.length + 1` fuel is
never exhausted on a real run. -/

def parseLoop : Nat → PState → Frame → List Frame → Option VibeValue × PState
  | 0, st, _, _ => (none, st)
  | fuel + 1, st, top, rest =>
    let r := next_token st
    let tok := r.1
    let st1 := r.2
    if st1.err.isSome || tok.type = .error then (none, st1)
    else if tok.type = .eof then (some (finishStack top rest), st1)
    else if tok.type = .newline then parseLoop fuel st1 top rest
    else
      match parseStep tok st1 top rest with
      | .next st2 top2 rest2 => parseLoop fuel st2 top2 rest2
      | .abort st2 => (none, st2)

def initState (input : String) : PState :=
  { rest := input.data, line := 1, col := 1, err := none }

def vibe_parse_string (input : String) : Option VibeValue × PState :=
  parseLoop (input.length + 1) (initState input)
    { kind := .root, cont := .obj [], attach := .root } []

/-! ## Path lookup (vibe.c `vibe_get`, lines 803-823)

The C code tokenizes the path with `strtok_r(path, ".", _)`, which skips
runs of delimiters and never yields an empty segment; `strtokGo`
reproduces that. -/

def strtokGo : List Char → List Char → List String
  | acc, [] => if acc.isEmpty then [] else [String.mk acc.reverse]
  | acc, c :: rest =>
    if c = '.' then
      if acc.isEmpty then strtokGo [] rest
      else String.mk acc.reverse :: strtokGo [] rest
    else strtokGo (c :: acc) rest

def vibeGetWalk : List String → VibeValue → Option VibeValue
  | [], cur => some cur
  | t :: ts, cur =>
    match cur with
    | .object es =>
      match vibe_object_get es t with
      | some v => vibeGetWalk ts v
      | none => none
    | _ => none

def vibe_get (root : VibeValue) (path : String) : Option VibeValue :=
  vibeGetWalk (strtokGo [] path.data) root

/-- One step of the walk that the spec describes for `vibe_get`: "look
up the next segment by exact string equality; if the current node is
not an Object, return nothing".  Used as the specification side of the
refinement claims about dotted-path lookup. -/
def object_get_step (v : Option VibeValue) (k : String) : Option VibeValue :=
  match v with
  | some (.object es) => vibe_object_get es k
  | _ => none

/-! ## Helper lemmas: stepping the parse loop symbolically -/

lemma parseLoop_step (fuel : Nat) (st : PState) (top : Frame) (rest : List Frame) :
    parseLoop (fuel + 1) st top rest =
      (let r := next_token st
       let tok := r.1
       let st1 := r.2
       if st1.err.isSome || tok.type = .error then (none, st1)
       else if tok.type = .eof then (some (finishStack top rest), st1)
       else if tok.type = .newline then parseLoop fuel st1 top rest
       else
         match parseStep tok st1 top rest with
         | .next st2 top2 rest2 => parseLoop fuel st2 top2 rest2
         | .abort st2 => (none, st2)) := rfl

lemma parseLoop_step2 (fuel : Nat) (st : PState) (top : Frame) (rest : List Frame) :
    parseLoop (fuel + 1) st top rest =
      (if (next_token st).2.err.isSome || (next_token st).1.type = .error then (none, (next_token st).2)
       else if (next_token st).1.type = .eof then (some (finishStack top rest), (next_token st).2)
       else if (next_token st).1.type = .newline then parseLoop fuel (next_token st).2 top rest
       else
         match parseStep (next_token st).1 (next_token st).2 top rest with
         | .next st2 top2 rest2 => parseLoop fuel st2 top2 rest2
         | .abort st2 => (none, st2)) := by
  cases hr : next_token st with
  | mk tok st1 => rw [parseLoop_step, hr]

lemma next_token_newline (line col : Nat) :
    next_token ⟨['\n'], line, col, none⟩ =
      (mkTok .newline line col, ⟨[], line + 1, 1, none⟩) := rfl

lemma next_token_eof (line col : Nat) :
    next_token ⟨[], line, col, none⟩ = (mkTok .eof 0 0, ⟨[], line, col, none⟩) := rfl

/-! ## Helper lemmas: quoted strings of a given payload length

`pqsAux` on a payload of `n` plain bytes: it fails with "String too
long" as soon as the byte counter would reach 4095, and otherwise
returns the decoded payload. -/

lemma pqsAux_replicate_long :
    ∀ (n : Nat) (bufRev : List Char) (bufPos col : Nat) (tail : List Char),
      1 ≤ n → 4095 ≤ bufPos + n →
      pqsAux (List.replicate n 'a' ++ tail) bufRev bufPos col = .error "String too long" := by
  intro n
  induction n with
  | zero => intro bufRev bufPos col tail h1 h2; omega
  | succ m ih =>
    intro bufRev bufPos col tail h1 h2
    simp only [List.replicate_succ, List.cons_append, pqsAux]
    by_cases hb : 4095 ≤ bufPos + 1
    · simp [hb]
    · simp only [hb, if_neg, if_false, List.append_eq]
      exact ih ('a' :: bufRev) (bufPos + 1) (col + 1) tail (by omega) (by omega)

lemma pqsAux_replicate_ok :
    ∀ (n : Nat) (bufRev : List Char) (bufPos col : Nat) (tail : List Char),
      bufPos + n ≤ 4094 →
      pqsAux (List.replicate n 'a' ++ '"' :: tail) bufRev bufPos col
        = .ok (String.mk (bufRev.reverse ++ List.replicate n 'a'), tail, col + n + 1) := by
  intro n
  induction n with
  | zero =>
    intro bufRev bufPos col tail h
    simp [pqsAux]
  | succ m ih =>
    intro bufRev bufPos col tail h
    simp only [List.replicate_succ, List.cons_append, pqsAux]
    have hb : ¬ (4095 ≤ bufPos + 1) := by omega
    simp only [hb, if_neg, if_false, List.append_eq]
    rw [ih ('a' :: bufRev) (bufPos + 1) (col + 1) tail (by omega)]
    simp [List.replicate_succ]
    omega

/-- The canonical one-statement input `k "aa…a"` whose quoted payload
has exactly `n` bytes. -/
def mkStrInput (n : Nat) : String :=
  "k \"" ++ String.mk (List.replicate n 'a') ++ "\"\n"

lemma mkStrInput_data (n : Nat) :
    (mkStrInput n).data = 'k' :: ' ' :: '"' :: (List.replicate n 'a' ++ ['"', '\n']) := by
  simp [mkStrInput]

lemma mkStrInput_length (n : Nat) : (mkStrInput n).length = n + 5 := by
  simp [mkStrInput, String.length]

lemma next_token_ws_quote (rs : List Char) (line col : Nat) :
    next_token ⟨' ' :: '"' :: rs, line, col, none⟩ =
      (match pqsAux rs [] 0 (col + 1 + 1) with
       | .ok (payload, rest2, col2) =>
         ({ type := .string, value := some payload, line := line, col := col + 1 },
          (⟨rest2, line, col2, none⟩ : PState))
       | .error msg =>
         (mkTok .error line (col + 1), (⟨'"' :: rs, line, col + 1, some msg⟩ : PState))) := rfl

lemma next_token_quote_latched (rs : List Char) (line col : Nat) (m0 msg : String)
    (hp : pqsAux rs [] 0 (col + 1) = .error msg) :
    next_token ⟨'"' :: rs, line, col, some m0⟩ =
      (mkTok .error line col, ⟨'"' :: rs, line, col, some m0⟩) := by
  have base : next_token ⟨'"' :: rs, line, col, some m0⟩ =
      (match pqsAux rs [] 0 (col + 1) with
       | .ok (payload, rest2, col2) =>
         ({ type := .string, value := some payload, line := line, col := col },
          (⟨rest2, line, col2, some m0⟩ : PState))
       | .error _ =>
         (mkTok .error line col, (⟨'"' :: rs, line, col, some m0⟩ : PState))) := rfl
  rw [base, hp]

lemma parse_mkStrInput_long (n : Nat) (h : 4095 ≤ n) :
    vibe_parse_string (mkStrInput n) =
      (none, ⟨'"' :: (List.replicate n 'a' ++ ['"', '\n']), 1, 3, some "String too long"⟩) := by
  have herr : pqsAux (List.replicate n 'a' ++ ['"', '\n']) [] 0 (2 + 1 + 1)
      = .error "String too long" :=
    pqsAux_replicate_long n [] 0 (2 + 1 + 1) ['"', '\n'] (by omega) (by omega)
  have h0 : vibe_parse_string (mkStrInput n) =
      parseLoop ((mkStrInput n).length + 1)
        ⟨(mkStrInput n).data, 1, 1, none⟩ ⟨.root, .obj [], .root⟩ [] := rfl
  rw [h0, mkStrInput_length, mkStrInput_data]
  have e1 : next_token ⟨'k' :: ' ' :: '"' :: (List.replicate n 'a' ++ ['"', '\n']), 1, 1, none⟩
      = ({ type := .identifier, value := some "k", line := 1, col := 1 },
         ⟨' ' :: '"' :: (List.replicate n 'a' ++ ['"', '\n']), 1, 2, none⟩) := rfl
  have e2 := next_token_ws_quote (List.replicate n 'a' ++ ['"', '\n']) 1 2
  rw [herr] at e2
  rw [parseLoop_step2, e1]
  simp [parseStep, e2, mkTok, parse_value_from_token, objSetCont, vibe_object_set, objectSetCore]
  have e4 := next_token_quote_latched (List.replicate n 'a' ++ ['"', '\n']) 1 3
    "String too long" "String too long" herr
  rw [show n + 5 = (n + 4) + 1 by omega, parseLoop_step2, e4]
  simp [mkTok]

lemma parse_mkStrInput_ok (n : Nat) (h : n ≤ 4094) :
    vibe_parse_string (mkStrInput n) =
      (some (.object [("k", .string (String.mk (List.replicate n 'a')))]), ⟨[], 2, 1, none⟩) := by
  have hok : pqsAux (List.replicate n 'a' ++ ['"', '\n']) [] 0 (2 + 1 + 1) =
      .ok (String.mk (List.replicate n 'a'), ['\n'], 2 + 1 + 1 + n + 1) := by
    have := pqsAux_replicate_ok n [] 0 (2 + 1 + 1) ['\n'] (by omega)
    simpa using this
  have h0 : vibe_parse_string (mkStrInput n) =
      parseLoop ((mkStrInput n).length + 1)
        ⟨(mkStrInput n).data, 1, 1, none⟩ ⟨.root, .obj [], .root⟩ [] := rfl
  rw [h0, mkStrInput_length, mkStrInput_data]
  have e1 : next_token ⟨'k' :: ' ' :: '"' :: (List.replicate n 'a' ++ ['"', '\n']), 1, 1, none⟩
      = ({ type := .identifier, value := some "k", line := 1, col := 1 },
         ⟨' ' :: '"' :: (List.replicate n 'a' ++ ['"', '\n']), 1, 2, none⟩) := rfl
  have e2 := next_token_ws_quote (List.replicate n 'a' ++ ['"', '\n']) 1 2
  rw [hok] at e2
  rw [parseLoop_step2, e1]
  simp [parseStep, e2, mkTok, parse_value_from_token, objSetCont, vibe_object_set, objectSetCore]
  rw [show n + 5 = (n + 4) + 1 by omega, parseLoop_step2, next_token_newline]
  simp [mkTok]
  rw [show n + 4 = (n + 3) + 1 by omega, parseLoop_step2, next_token_eof]
  simp [mkTok, finishStack, contToValue]

/-- C1 (counterexample): the claim says a 4095-byte quoted payload
lexes to a String token and the parse succeeds; on the code the parse
of `k "a…a"` with a 4095-byte payload returns no tree and latches
"String too long". -/
theorem C1_counterexample :
    (vibe_parse_string (mkStrInput 4095)).1 = none ∧
    (vibe_parse_string (mkStrInput 4095)).2.err = some "String too long" := by
  rw [parse_mkStrInput_long 4095 (by omega)]
  exact ⟨rfl, rfl⟩

/-- C1 (amended): a quoted string whose payload is at most 4094 bytes
succeeds (the parse returns a root object whose entry carries the
decoded payload), while a payload of 4095 or more bytes — in particular
4097 — makes the parse fail with the error message "String too long"
and no tree. -/
theorem C1_amended (n : Nat) :
    (n ≤ 4094 →
      vibe_parse_string (mkStrInput n) =
        (some (.object [("k", .string (String.mk (List.replicate n 'a')))]), ⟨[], 2, 1, none⟩)) ∧
    (4095 ≤ n →
      (vibe_parse_string (mkStrInput n)).1 = none ∧
      (vibe_parse_string (mkStrInput n)).2.err = some "String too long") := by
  constructor
  · intro h
    exact parse_mkStrInput_ok n h
  · intro h
    rw [parse_mkStrInput_long n h]
    exact ⟨rfl, rfl⟩

/-- C1 (witness): the amended theorem applied at the concrete payload
lengths 4094 (success) and 4097 (failure). -/
theorem C1_witness :
    (4094 ≤ 4094 ∧
      vibe_parse_string (mkStrInput 4094) =
        (some (.object [("k", .string (String.mk (List.replicate 4094 'a')))]), ⟨[], 2, 1, none⟩)) ∧
    (4095 ≤ 4097 ∧ (vibe_parse_string (mkStrInput 4097)).1 = none ∧
      (vibe_parse_string (mkStrInput 4097)).2.err = some "String too long") :=
  ⟨⟨by omega, (C1_amended 4094).1 (by omega)⟩,
   ⟨by omega, (C1_amended 4097).2 (by omega)⟩⟩

/-! ## Helper lemmas: nesting depth -/

lemma parseStep_depth_abort (tok : Token) (st : PState) (top : Frame) (rest : List Frame)
    (hk : top.kind = .root ∨ top.kind = .object)
    (ht : tok.type = .identifier)
    (hp : (next_token st).1.type = .lbrace ∨ (next_token st).1.type = .lbracket)
    (hd : 63 ≤ rest.length) :
    parseStep tok st top rest =
      .abort (set_error (next_token st).2 "Maximum nesting depth exceeded") := by
  obtain ⟨kind, cont, att⟩ := top
  cases hnt : next_token st with
  | mk nt st2 =>
    simp only [hnt] at hp
    have hd2 : 64 ≤ rest.length + 1 := by omega
    rcases hk with hk | hk <;> simp only at hk <;> subst hk <;>
      rcases hp with hp | hp <;>
        simp [parseStep, ht, hnt, hp, hd2]

lemma parseLoop_some_err_none :
    ∀ (fuel : Nat) (st : PState) (top : Frame) (rest : List Frame) (v : VibeValue) (st2 : PState),
      parseLoop fuel st top rest = (some v, st2) → st2.err = none := by
  intro fuel
  induction fuel with
  | zero =>
    intro st top rest v st2 h
    simp [parseLoop] at h
  | succ f ih =>
    intro st top rest v st2 h
    rw [parseLoop_step2] at h
    by_cases h1 : ((next_token st).2.err.isSome || decide ((next_token st).1.type = TokenType.error)) = true
    · rw [if_pos h1] at h
      exact absurd (congrArg Prod.fst h) (by simp)
    · rw [if_neg h1] at h
      by_cases h2 : (next_token st).1.type = TokenType.eof
      · rw [if_pos h2] at h
        have hs := congrArg Prod.snd h
        simp only [] at hs
        subst hs
        simp only [Bool.or_eq_true, not_or] at h1
        obtain ⟨ha, -⟩ := h1
        cases hh : (next_token st).2.err with
        | none => rfl
        | some m => rw [hh] at ha; simp at ha
      · rw [if_neg h2] at h
        by_cases h3 : (next_token st).1.type = TokenType.newline
        · rw [if_pos h3] at h
          exact ih _ _ _ _ _ h
        · rw [if_neg h3] at h
          cases hps : parseStep (next_token st).1 (next_token st).2 top rest with
          | next st2a top2 rest2 =>
            rw [hps] at h
            exact ih _ _ _ _ _ h
          | abort st2a =>
            rw [hps] at h
            exact absurd (congrArg Prod.fst h) (by simp)

set_option maxRecDepth 10000

/-- The input that opens `n` nested objects with `k { ` and closes them
all: `k { k { … } }`. -/
def mkNest (n : Nat) : String :=
  String.join (List.replicate n "k \x7b ") ++ String.join (List.replicate n "\x7d ")

/-- The tree such an input should parse to: `n` nested one-entry
objects under key `k`. -/
def nestTree : Nat → VibeValue
  | 0 => .object []
  | n + 1 => .object [("k", nestTree n)]

/-- C2 (counterexample): the claim says an input nesting exactly 64
objects via `key {` chains parses successfully; on the code the parse
of 64 such chains returns no tree and latches "Maximum nesting depth
exceeded". -/
theorem C2_counterexample :
    (vibe_parse_string (mkNest 64)).1 = none ∧
    (vibe_parse_string (mkNest 64)).2.err = some "Maximum nesting depth exceeded" :=
  ⟨rfl, rfl⟩

/-- C2 (amended): an input nesting exactly 63 objects via `key {`
chains parses successfully, while one nesting 64 fails; whenever a
`key {` / `key [` would push the stack to depth 64 the parser aborts
with "Maximum nesting depth exceeded", and whenever a parse returns a
tree no error is latched (equivalently: an errored parse returns no
tree, the partial tree being freed). -/
theorem C2_amended :
    ((vibe_parse_string (mkNest 63)).1 = some (nestTree 63) ∧
      (vibe_parse_string (mkNest 63)).2.err = none) ∧
    ((vibe_parse_string (mkNest 64)).1 = none ∧
      (vibe_parse_string (mkNest 64)).2.err = some "Maximum nesting depth exceeded") ∧
    (∀ (tok : Token) (st : PState) (top : Frame) (rest : List Frame),
      top.kind = .root ∨ top.kind = .object → tok.type = .identifier →
      ((next_token st).1.type = .lbrace ∨ (next_token st).1.type = .lbracket) →
      63 ≤ rest.length →
      parseStep tok st top rest =
        .abort (set_error (next_token st).2 "Maximum nesting depth exceeded")) ∧
    (∀ (s : String) (v : VibeValue),
      (vibe_parse_string s).1 = some v → (vibe_parse_string s).2.err = none) := by
  refine ⟨⟨rfl, rfl⟩, ⟨rfl, rfl⟩, parseStep_depth_abort, ?_⟩
  intro s v h
  have hpair : vibe_parse_string s = ((vibe_parse_string s).1, (vibe_parse_string s).2) := rfl
  rw [h] at hpair
  exact parseLoop_some_err_none _ _ _ _ _ _ hpair

/-- C2 (witness): the depth-abort branch applied at a concrete stack of
depth 63 with the peeked token `{`, and the no-error consequence applied
to the successful 63-deep parse. -/
theorem C2_witness :
    (63 ≤ (List.replicate 63 (⟨.root, .obj [], .root⟩ : Frame)).length ∧
      parseStep ⟨.identifier, some "k", 1, 1⟩ ⟨['{'], 1, 1, none⟩ ⟨.root, .obj [], .root⟩
          (List.replicate 63 ⟨.root, .obj [], .root⟩) =
        .abort (set_error (next_token ⟨['{'], 1, 1, none⟩).2 "Maximum nesting depth exceeded")) ∧
    ((vibe_parse_string (mkNest 63)).1 = some (nestTree 63) ∧
      (vibe_parse_string (mkNest 63)).2.err = none) :=
  ⟨⟨by simp, C2_amended.2.2.1 ⟨.identifier, some "k", 1, 1⟩ ⟨['{'], 1, 1, none⟩
      ⟨.root, .obj [], .root⟩ (List.replicate 63 ⟨.root, .obj [], .root⟩)
      (Or.inl rfl) rfl (Or.inl rfl) (by simp)⟩,
   ⟨C2_amended.1.1, C2_amended.2.2.2 (mkNest 63) (nestTree 63) C2_amended.1.1⟩⟩

/-! ## C3: left brace inside an array -/

/-- Input with 62 nested objects, then an array, then `{ x 1` at stack depth 63:
the brace appends an object to the array but vibe.c lines 732-737 skip
the frame push at that depth, so `x` and `1` land in the array itself. -/
def c3Input : String := String.join (List.replicate 62 "d \x7b ") ++ "a [ \x7b x 1"

/-- Wraps `n` nested one-entry objects under key `d` around a given value. -/
def dNest : Nat → VibeValue → VibeValue
  | 0, v => v
  | n + 1, v => .object [("d", dNest n v)]

/-- C3 (counterexample): with the array frame at stack depth 63, the
`{` still appends a fresh empty object to the array but no Object frame
is pushed, so the following `x 1` statement does not populate that
object — it is lexed as two further array elements.  The claim's
predicted array `[{x: 1}]` differs from the actual
`[{}, "x", 1]`. -/
theorem C3_counterexample :
    (vibe_parse_string c3Input).1 =
      some (dNest 62 (.object [("a", .array [.object [], .string "x", .integer 1])])) ∧
    (.array [.object [], .string "x", .integer 1] : VibeValue) ≠
      .array [.object [("x", .integer 1)]] := by
  refine ⟨rfl, ?_⟩
  simp

/-- C3 (amended): whenever the current frame is an Array frame and the
next token is a LeftBrace, the parser appends a new empty Object to the
array being filled; if the stack depth is below 63 it also pushes an
Object frame for it (so that following key/value statements populate
the new object until its matching RightBrace), but at depth 63 no frame
is pushed and parsing continues in the Array frame. -/
theorem C3_amended (tok : Token) (st : PState) (top : Frame) (rest : List Frame)
    (hk : top.kind = .array) (ht : tok.type = .lbrace) :
    (rest.length < 63 →
      parseStep tok st top rest =
        .next st ⟨.object, .obj [], .atIndex (contLen top.cont)⟩
          ({ top with cont := arrPushCont top.cont (.object []) } :: rest)) ∧
    (63 ≤ rest.length →
      parseStep tok st top rest =
        .next st { top with cont := arrPushCont top.cont (.object []) } rest) := by
  obtain ⟨kind, cont, att⟩ := top
  simp only at hk
  subst hk
  constructor
  · intro hd
    simp [parseStep, ht, hd]
  · intro hd
    have hd2 : ¬ (rest.length < 63) := by omega
    simp [parseStep, ht, hd2]

/-- C3 (witness): the amended theorem applied to a concrete Array frame
at depth 0 (frame pushed) and at depth 63 (append only, no push). -/
theorem C3_witness :
    ((⟨.array, .arr [], .atKey "a"⟩ : Frame).kind = .array ∧
      (⟨.lbrace, none, 1, 1⟩ : Token).type = .lbrace ∧
      ([] : List Frame).length < 63 ∧
      parseStep ⟨.lbrace, none, 1, 1⟩ ⟨[], 1, 1, none⟩ ⟨.array, .arr [], .atKey "a"⟩ [] =
        .next ⟨[], 1, 1, none⟩ ⟨.object, .obj [], .atIndex (contLen (.arr []))⟩
          [⟨.array, arrPushCont (.arr []) (.object []), .atKey "a"⟩]) ∧
    (63 ≤ (List.replicate 63 (⟨.root, .obj [], .root⟩ : Frame)).length ∧
      parseStep ⟨.lbrace, none, 1, 1⟩ ⟨[], 1, 1, none⟩ ⟨.array, .arr [], .atKey "a"⟩
          (List.replicate 63 ⟨.root, .obj [], .root⟩) =
        .next ⟨[], 1, 1, none⟩ ⟨.array, arrPushCont (.arr []) (.object []), .atKey "a"⟩
          (List.replicate 63 ⟨.root, .obj [], .root⟩)) :=
  ⟨⟨rfl, rfl, by simp,
    (C3_amended ⟨.lbrace, none, 1, 1⟩ ⟨[], 1, 1, none⟩ ⟨.array, .arr [], .atKey "a"⟩ [] rfl rfl).1
      (by simp)⟩,
   ⟨by simp,
    (C3_amended ⟨.lbrace, none, 1, 1⟩ ⟨[], 1, 1, none⟩ ⟨.array, .arr [], .atKey "a"⟩
        (List.replicate 63 ⟨.root, .obj [], .root⟩) rfl rfl).2 (by simp)⟩⟩

/-! ## C4: `-` before a digit vs. before a space -/

/-- C4: `key -7` lexes `-7` as a Number (the `-` is consumed because a
digit follows) and parses to Integer `-7`; `key - 7` lexes `-` as a
bare String, which becomes the value of `key`, and the stray `7` is
skipped without any error being latched. -/
theorem C4_minus_tokens :
    (vibe_parse_string "key -7\n").1 = some (.object [("key", .integer (-7))]) ∧
    (vibe_parse_string "key -7\n").2.err = none ∧
    (vibe_parse_string "key - 7\n").1 = some (.object [("key", .string "-")]) ∧
    (vibe_parse_string "key - 7\n").2.err = none :=
  ⟨rfl, rfl, rfl, rfl⟩

/-! ## C5: token locations after a comment

Reference meaning of the 1-indexed line/column of the byte at index `i`
of an input, as the spec uses the words: the line is one more than the
number of newlines before it, the column counts from the byte just
after the previous newline. -/

def lineOfByte (s : List Char) (i : Nat) : Nat :=
  1 + ((s.take i).filter (fun c => c = '\n')).length

def colOfByte (s : List Char) (i : Nat) : Nat :=
  ((s.take i).reverse.takeWhile (fun c => !(c = '\n'))).length + 1

/-- C5: on the input `a #c\n` the second token is the Newline whose
first (and only) byte is at index 4, i.e. at true line 1, column 5 —
but the lexer reports column 3, because `skip_comment` (vibe.c lines
225-231) advances the position past the comment bytes without advancing
the column counter.  The first token `a` is still reported correctly at
1:1. -/
theorem C5_comment_column :
    (next_token (initState "a #c\n")).1.type = .identifier ∧
    (next_token (initState "a #c\n")).1.line = 1 ∧
    (next_token (initState "a #c\n")).1.col = 1 ∧
    (next_token (next_token (initState "a #c\n")).2).1.type = .newline ∧
    (next_token (next_token (initState "a #c\n")).2).1.line = 1 ∧
    (next_token (next_token (initState "a #c\n")).2).1.col = 3 ∧
    "a #c\n".data.get? 4 = some '\n' ∧
    lineOfByte "a #c\n".data 4 = 1 ∧
    colOfByte "a #c\n".data 4 = 5 ∧
    (3 : Nat) ≠ 5 :=
  ⟨rfl, rfl, rfl, rfl, rfl, rfl, rfl, rfl, rfl, by omega⟩

/-! ## C10: integer overflow saturates -/

/-- C10: for every Number token whose text contains no dot, the scalar
conversion reports no error: it always produces an Integer, namely the
denoted decimal value clamped to the signed 64-bit range (`strtoll`
saturates and vibe.c ignores `errno`); and concretely
`key 99999999999999999999` parses to Integer `INT64_MAX` with no
error. -/
theorem C10_saturation :
    (∀ (s : List Char) (l c : Nat),
      is_valid_number s = true → s.contains '.' = false →
      parse_value_from_token ⟨.number, some (String.mk s), l, c⟩ =
        some (.integer (clampInt64 (denotedInt s))) ∧
      (int64Max < denotedInt s → clampInt64 (denotedInt s) = int64Max) ∧
      (denotedInt s < int64Min → clampInt64 (denotedInt s) = int64Min)) ∧
    (vibe_parse_string "key 99999999999999999999\n").1 =
      some (.object [("key", .integer 9223372036854775807)]) ∧
    (vibe_parse_string "key 99999999999999999999\n").2.err = none := by
  refine ⟨?_, rfl, rfl⟩
  intro s l c _hval hdot
  have hbase : parse_value_from_token ⟨.number, some (String.mk s), l, c⟩ =
      if s.contains '.' then some (.float (String.mk s))
      else some (.integer (strtollClamp s)) := rfl
  refine ⟨?_, ?_, ?_⟩
  · rw [hbase, hdot]
    rfl
  · intro h
    unfold clampInt64 int64Max int64Min
    unfold int64Max at h
    omega
  · intro h
    unfold clampInt64 int64Max int64Min
    unfold int64Min at h
    omega

/-- C10 (witness): the saturation theorem applied to the 20-digit
token `99999999999999999999`, whose denoted value exceeds `INT64_MAX`. -/
theorem C10_witness :
    is_valid_number "99999999999999999999".data = true ∧
    "99999999999999999999".data.contains '.' = false ∧
    parse_value_from_token ⟨.number, some (String.mk "99999999999999999999".data), 1, 5⟩ =
      some (.integer (clampInt64 (denotedInt "99999999999999999999".data))) ∧
    int64Max < denotedInt "99999999999999999999".data ∧
    clampInt64 (denotedInt "99999999999999999999".data) = int64Max :=
  ⟨by decide, by decide,
   (C10_saturation.1 "99999999999999999999".data 1 5 (by decide) (by decide)).1,
   by decide,
   (C10_saturation.1 "99999999999999999999".data 1 5 (by decide) (by decide)).2.1 (by decide)⟩

/-! ## C7: object_set replace semantics -/

lemma vibe_object_set_cons (k0 : String) (v0 : VibeValue) (rest : List (String × VibeValue))
    (k : String) (v : VibeValue) :
    vibe_object_set ((k0, v0) :: rest) k v =
      if k0 = k then (k0, v) :: rest else (k0, v0) :: vibe_object_set rest k v := by
  simp only [vibe_object_set, objectSetCore]
  split <;> rfl

lemma vibe_object_get_set_self (es : List (String × VibeValue)) (k : String) (v : VibeValue) :
    vibe_object_get (vibe_object_set es k v) k = some v := by
  induction es with
  | nil => simp [vibe_object_set, objectSetCore, vibe_object_get]
  | cons e rest ih =>
    obtain ⟨k0, v0⟩ := e
    rw [vibe_object_set_cons]
    by_cases hk : k0 = k
    · simp [hk, vibe_object_get]
    · simp [hk, vibe_object_get, ih]

lemma objectSetCore_of_get_some (es : List (String × VibeValue)) (k : String)
    (v w : VibeValue) (h : vibe_object_get es k = some w) :
    (objectSetCore es k v).2 = some w ∧
    (objectSetCore es k v).1.map Prod.fst = es.map Prod.fst := by
  induction es with
  | nil => simp [vibe_object_get] at h
  | cons e rest ih =>
    obtain ⟨k0, v0⟩ := e
    by_cases hk : k0 = k
    · simp only [vibe_object_get, hk, if_pos] at h
      simp [objectSetCore, hk, h]
    · simp only [vibe_object_get, hk, if_neg, if_false] at h
      obtain ⟨h1, h2⟩ := ih h
      simp [objectSetCore, hk, h1, h2]

/-- C7: setting key `k` to `v1` and then to `v2` leaves `v2` as the
value `vibe_object_get` returns for `k`; the second set hands exactly
the prior value `v1` to `vibe_value_free` before inserting; the list
of keys (hence the entry count and the position of `k`) is unchanged
by the second set. -/
theorem C7_set_twice (es : List (String × VibeValue)) (k : String) (v1 v2 : VibeValue) :
    vibe_object_get (vibe_object_set (vibe_object_set es k v1) k v2) k = some v2 ∧
    (objectSetCore (vibe_object_set es k v1) k v2).2 = some v1 ∧
    (vibe_object_set (vibe_object_set es k v1) k v2).map Prod.fst =
      (vibe_object_set es k v1).map Prod.fst ∧
    (vibe_object_set (vibe_object_set es k v1) k v2).length =
      (vibe_object_set es k v1).length := by
  have hget : vibe_object_get (vibe_object_set es k v1) k = some v1 :=
    vibe_object_get_set_self es k v1
  obtain ⟨hfreed, hkeys⟩ := objectSetCore_of_get_some (vibe_object_set es k v1) k v2 v1 hget
  refine ⟨vibe_object_get_set_self _ k v2, hfreed, hkeys, ?_⟩
  have := congrArg List.length hkeys
  simpa [vibe_object_set] using this

/-! ## C6 and C9: dotted-path lookup vs. chained object_get -/

lemma string_mk_data (s : String) : String.mk s.data = s := rfl

lemma data_ne_nil_of_ne_empty (s : String) (h : s ≠ "") : s.data ≠ [] := by
  intro hd
  apply h
  have : String.mk s.data = String.mk [] := by rw [hd]
  simpa [string_mk_data] using this

lemma strtokGo_append_dotfree (xs : List Char) :
    ∀ (acc rest : List Char), (∀ c ∈ xs, c ≠ '.') →
      strtokGo acc (xs ++ rest) = strtokGo (xs.reverse ++ acc) rest := by
  induction xs with
  | nil => intro acc rest _; simp
  | cons c xs ih =>
    intro acc rest h
    have hc : c ≠ '.' := h c (by simp)
    simp only [List.cons_append, strtokGo, if_neg hc, List.append_eq]
    rw [ih (c :: acc) rest (fun d hd => h d (by simp [hd]))]
    simp

lemma strtokGo_nil_acc (acc : List Char) (h : acc ≠ []) :
    strtokGo acc [] = [String.mk acc.reverse] := by
  have : acc.isEmpty = false := by simpa [List.isEmpty_iff] using h
  simp [strtokGo, this]

lemma strtokGo_dot_acc (acc rest : List Char) (h : acc ≠ []) :
    strtokGo acc ('.' :: rest) = String.mk acc.reverse :: strtokGo [] rest := by
  have : acc.isEmpty = false := by simpa [List.isEmpty_iff] using h
  simp [strtokGo, this]

lemma strtokGo_dot_nil (rest : List Char) : strtokGo [] ('.' :: rest) = strtokGo [] rest := by
  simp [strtokGo]

lemma strtok_head (a : String) (rest : List Char) (ha : a ≠ "")
    (hd : ∀ c ∈ a.data, c ≠ '.') :
    strtokGo [] (a.data ++ '.' :: rest) = a :: strtokGo [] rest := by
  rw [strtokGo_append_dotfree a.data [] ('.' :: rest) hd]
  rw [List.append_nil]
  rw [strtokGo_dot_acc _ _ (by simpa using data_ne_nil_of_ne_empty a ha)]
  simp [string_mk_data]

lemma strtok_single (a : String) (ha : a ≠ "") (hd : ∀ c ∈ a.data, c ≠ '.') :
    strtokGo [] a.data = [a] := by
  have := strtokGo_append_dotfree a.data [] [] hd
  rw [List.append_nil] at this
  rw [this, List.append_nil]
  rw [strtokGo_nil_acc _ (by simpa using data_ne_nil_of_ne_empty a ha)]
  simp [string_mk_data]

lemma strtok_single_dot (b : String) (hb : b ≠ "") (db : ∀ c ∈ b.data, c ≠ '.') :
    strtokGo [] (b.data ++ ['.']) = [b] := by
  rw [strtokGo_append_dotfree b.data [] ['.'] db, List.append_nil]
  rw [strtokGo_dot_acc _ _ (by simpa using data_ne_nil_of_ne_empty b hb)]
  simp [string_mk_data, strtokGo]

lemma vibeGetWalk_cons (t : String) (ts : List String) (cur : VibeValue) :
    vibeGetWalk (t :: ts) cur =
      match object_get_step (some cur) t with
      | some v => vibeGetWalk ts v
      | none => none := by
  cases cur <;> rfl

lemma path3_data (a b c : String) :
    (a ++ "." ++ b ++ "." ++ c).data = a.data ++ '.' :: (b.data ++ '.' :: c.data) := by
  simp [String.data_append]

/-- C6: for every value tree and all non-empty dot-free keys `a`, `b`,
`c`, `vibe_get root "a.b.c"` returns the same result as chaining one
`vibe_object_get` step per segment through Object nodes, yielding
nothing as soon as a segment is absent or the current node is not an
Object (the chained walk is `object_get_step`, written from the spec's
words). -/
theorem C6_get_refines_chain (root : VibeValue) (a b c : String)
    (ha : a ≠ "") (hb : b ≠ "") (hc : c ≠ "")
    (da : ∀ ch ∈ a.data, ch ≠ '.') (db : ∀ ch ∈ b.data, ch ≠ '.')
    (dc : ∀ ch ∈ c.data, ch ≠ '.') :
    vibe_get root (a ++ "." ++ b ++ "." ++ c) =
      object_get_step (object_get_step (object_get_step (some root) a) b) c := by
  unfold vibe_get
  rw [path3_data, strtok_head a _ ha da, strtok_head b _ hb db, strtok_single c hc dc]
  rw [vibeGetWalk_cons]
  cases h1 : object_get_step (some root) a with
  | none => simp [object_get_step]
  | some v1 =>
    simp only []
    rw [vibeGetWalk_cons]
    cases h2 : object_get_step (some v1) b with
    | none => simp [object_get_step]
    | some v2 =>
      simp only []
      rw [vibeGetWalk_cons]
      cases h3 : object_get_step (some v2) c with
      | none => rfl
      | some v3 => rfl

/-- C9: for every value `v` (of any variant, scalars included),
`vibe_get v ""` returns `v` itself; and empty path segments are
skipped, so for all non-empty dot-free keys `a`, `b` the paths
`a..b`, `.a.b` and `a.b.` all look up the same value as `a.b`. -/
theorem C9_empty_path_segments (v : VibeValue) (a b : String)
    (ha : a ≠ "") (hb : b ≠ "")
    (da : ∀ ch ∈ a.data, ch ≠ '.') (db : ∀ ch ∈ b.data, ch ≠ '.') :
    vibe_get v "" = some v ∧
    vibe_get v (a ++ ".." ++ b) = vibe_get v (a ++ "." ++ b) ∧
    vibe_get v ("." ++ a ++ "." ++ b) = vibe_get v (a ++ "." ++ b) ∧
    vibe_get v (a ++ "." ++ b ++ ".") = vibe_get v (a ++ "." ++ b) := by
  have hab : strtokGo [] ((a ++ "." ++ b).data) = [a, b] := by
    have hd : (a ++ "." ++ b).data = a.data ++ '.' :: b.data := by
      simp [String.data_append]
    rw [hd, strtok_head a _ ha da, strtok_single b hb db]
  refine ⟨rfl, ?_, ?_, ?_⟩
  · have hd : (a ++ ".." ++ b).data = a.data ++ '.' :: '.' :: b.data := by
      simp [String.data_append]
    unfold vibe_get
    rw [hd, hab, strtok_head a _ ha da, strtokGo_dot_nil, strtok_single b hb db]
  · have hd : ("." ++ a ++ "." ++ b).data = '.' :: (a.data ++ '.' :: b.data) := by
      simp [String.data_append]
    unfold vibe_get
    rw [hd, hab, strtokGo_dot_nil, strtok_head a _ ha da, strtok_single b hb db]
  · have hd : (a ++ "." ++ b ++ ".").data = a.data ++ '.' :: (b.data ++ ['.']) := by
      simp [String.data_append]
    unfold vibe_get
    rw [hd, hab, strtok_head a _ ha da, strtok_single_dot b hb db]

/-- C6 (witness): the refinement applied to the concrete tree
`{a: {b: {c: 7}}}` and the path `a.b.c`. -/
theorem C6_witness :
    ("a" : String) ≠ "" ∧ ("b" : String) ≠ "" ∧ ("c" : String) ≠ "" ∧
    (∀ ch ∈ ("a" : String).data, ch ≠ '.') ∧
    (∀ ch ∈ ("b" : String).data, ch ≠ '.') ∧
    (∀ ch ∈ ("c" : String).data, ch ≠ '.') ∧
    vibe_get (.object [("a", .object [("b", .object [("c", .integer 7)])])])
        ("a" ++ "." ++ "b" ++ "." ++ "c") =
      object_get_step (object_get_step (object_get_step
        (some (.object [("a", .object [("b", .object [("c", .integer 7)])])])) "a") "b") "c" :=
  ⟨by decide, by decide, by decide, by decide, by decide, by decide,
   C6_get_refines_chain (.object [("a", .object [("b", .object [("c", .integer 7)])])])
     "a" "b" "c" (by decide) (by decide) (by decide) (by decide) (by decide) (by decide)⟩

/-- C9 (witness): the empty-segment behaviour applied to the scalar
`Integer 5` and the keys `x`, `y`. -/
theorem C9_witness :
    ("x" : String) ≠ "" ∧ ("y" : String) ≠ "" ∧
    (∀ ch ∈ ("x" : String).data, ch ≠ '.') ∧
    (∀ ch ∈ ("y" : String).data, ch ≠ '.') ∧
    (vibe_get (.integer 5) "" = some (.integer 5) ∧
     vibe_get (.integer 5) ("x" ++ ".." ++ "y") = vibe_get (.integer 5) ("x" ++ "." ++ "y") ∧
     vibe_get (.integer 5) ("." ++ "x" ++ "." ++ "y") = vibe_get (.integer 5) ("x" ++ "." ++ "y") ∧
     vibe_get (.integer 5) ("x" ++ "." ++ "y" ++ ".") = vibe_get (.integer 5) ("x" ++ "." ++ "y")) :=
  ⟨by decide, by decide, by decide, by decide,
   C9_empty_path_segments (.integer 5) "x" "y" (by decide) (by decide) (by decide) (by decide)⟩

/-! ## C8: escape sequences inside quoted strings -/

/-- C8: inside a quoted string the escapes `\"`, `\\`, `\n`, `\t`, `\r`
decode to their respective single characters in the payload being
accumulated; a backslash followed by any other character `x` fails with
"Invalid escape sequence '\x'"; a raw newline, or end of input before a
closing quote, fails with "Unterminated string"; and end-to-end, the
parse of concrete inputs exhibits each behaviour. -/
theorem C8_escape_sequences :
    (decodeEscape '"' = some '"' ∧ decodeEscape '\\' = some '\\' ∧
     decodeEscape 'n' = some '\n' ∧ decodeEscape 't' = some '\t' ∧
     decodeEscape 'r' = some '\r') ∧
    (∀ (x d : Char) (rest bufRev : List Char) (bufPos col : Nat),
      decodeEscape x = some d → bufPos + 1 < 4095 →
      pqsAux ('\\' :: x :: rest) bufRev bufPos col =
        pqsAux rest (d :: bufRev) (bufPos + 1) (col + 2)) ∧
    (∀ (x : Char) (rest bufRev : List Char) (bufPos col : Nat),
      decodeEscape x = none →
      pqsAux ('\\' :: x :: rest) bufRev bufPos col = .error (errInvalidEscape x)) ∧
    (∀ (x : Char), x ∉ (['"', '\\', 'n', 't', 'r'] : List Char) → decodeEscape x = none) ∧
    (∀ (rest bufRev : List Char) (bufPos col : Nat),
      pqsAux ('\n' :: rest) bufRev bufPos col = .error "Unterminated string") ∧
    (∀ (bufRev : List Char) (bufPos col : Nat),
      pqsAux [] bufRev bufPos col = .error "Unterminated string") ∧
    ((vibe_parse_string "k \"A\\nB\\tC\\rD\\\\E\\\"F\"\n").1 =
       some (.object [("k", .string "A\nB\tC\rD\\E\"F")]) ∧
     (vibe_parse_string "k \"A\\nB\\tC\\rD\\\\E\\\"F\"\n").2.err = none) ∧
    ((vibe_parse_string "k \"a\\qb\"\n").1 = none ∧
     (vibe_parse_string "k \"a\\qb\"\n").2.err = some (errInvalidEscape 'q')) ∧
    ((vibe_parse_string "s \"He said \\\"hi\\\"\nthere\"\n").1 = none ∧
     (vibe_parse_string "s \"He said \\\"hi\\\"\nthere\"\n").2.err = some "Unterminated string") ∧
    ((vibe_parse_string "k \"ab").1 = none ∧
     (vibe_parse_string "k \"ab").2.err = some "Unterminated string") := by
  refine ⟨⟨rfl, rfl, rfl, rfl, rfl⟩, ?_, ?_, ?_,
    fun rest bufRev bufPos col => rfl, fun bufRev bufPos col => rfl,
    ⟨rfl, rfl⟩, ⟨rfl, rfl⟩, ⟨rfl, rfl⟩, ⟨rfl, rfl⟩⟩
  · intro x d rest bufRev bufPos col hx hlen
    have base : pqsAux ('\\' :: x :: rest) bufRev bufPos col =
        (match decodeEscape x with
         | some d =>
           if 4095 ≤ bufPos + 1 then .error "String too long"
           else pqsAux rest (d :: bufRev) (bufPos + 1) (col + 2)
         | none => .error (errInvalidEscape x)) := rfl
    rw [base, hx]
    simp only []
    rw [if_neg (by omega)]
  · intro x rest bufRev bufPos col hx
    have base : pqsAux ('\\' :: x :: rest) bufRev bufPos col =
        (match decodeEscape x with
         | some d =>
           if 4095 ≤ bufPos + 1 then .error "String too long"
           else pqsAux rest (d :: bufRev) (bufPos + 1) (col + 2)
         | none => .error (errInvalidEscape x)) := rfl
    rw [base, hx]
  · intro x hx
    unfold decodeEscape
    split <;> simp_all

/-- C8 (witness): the universal parts applied at the escape `\n`
(decoded into a linefeed at byte counter 0) and at the invalid escape
`\q`. -/
theorem C8_witness :
    (decodeEscape 'n' = some '\n' ∧ 0 + 1 < 4095 ∧
      pqsAux ('\\' :: 'n' :: ['"']) [] 0 5 = pqsAux ['"'] ['\n' ] (0 + 1) (5 + 2)) ∧
    (decodeEscape 'q' = none ∧
      pqsAux ('\\' :: 'q' :: ['"']) [] 0 5 = .error (errInvalidEscape 'q')) ∧
    ('q' ∉ (['"', '\\', 'n', 't', 'r'] : List Char) ∧ decodeEscape 'q' = none) :=
  ⟨⟨rfl, by omega, C8_escape_sequences.2.1 'n' '\n' ['"'] [] 0 5 rfl (by omega)⟩,
   ⟨rfl, C8_escape_sequences.2.2.1 'q' ['"'] [] 0 5 rfl⟩,
   ⟨by decide, C8_escape_sequences.2.2.2.1 'q' (by decide)⟩⟩
